import Mathlib

/-!
Shallow embedding of the Q&A assistant frontend
(src/qa_frontend/src/App.js: the App component together with the api.js
client revisions it imports, concatenated in the same file).

JavaScript values that matter to the client are modelled by `JsonValue`
(the result of JSON parsing) and `Option JsonValue` (where `none` plays
the role of `undefined`).  Machine effects (fetch, the environment,
window.location) are passed in explicitly; console logging is effect-free
and omitted.
-/

/-- A JSON value, the model of what `resp.json()` / `JSON.parse` produce. -/
inductive JsonValue where
  | jNull : JsonValue
  | jBool (b : Bool) : JsonValue
  | jNum (n : Int) : JsonValue
  | jStr (s : String) : JsonValue
  | jArr (xs : List JsonValue) : JsonValue
  | jObj (fields : List (String × JsonValue)) : JsonValue

/-- A JavaScript value that may also be `undefined` (`none`). -/
abbrev JSVal := Option JsonValue

/-- JavaScript truthiness of a value (`undefined`, `null`, `false`, `0`
and the empty string are falsy; arrays and objects are truthy). -/
def jsTruthy : JSVal → Bool
  | none => false
  | some .jNull => false
  | some (.jBool b) => b
  | some (.jNum n) => n != 0
  | some (.jStr s) => s != ""
  | some (.jArr _) => true
  | some (.jObj _) => true

/-- The JavaScript `a || b` operator. -/
def jsOr (a b : JSVal) : JSVal := if jsTruthy a then a else b

/-- First-match lookup of a field in an object's field list. -/
def lookupField : List (String × JsonValue) → String → JSVal
  | [], _ => none
  | (k, v) :: rest, key => if k = key then some v else lookupField rest key

/-- The JavaScript optional property access `v?.k`: a field of an object,
`undefined` on anything else (including `null` and primitives). -/
def propAccess : JSVal → String → JSVal
  | some (.jObj fs), k => lookupField fs k
  | _, _ => none

/-- Whether a value is of JavaScript type string (`typeof v === 'string'`). -/
def isStringVal : JSVal → Bool
  | some (.jStr _) => true
  | _ => false

/-- Hex digit for a nibble. -/
def hexDigit (n : Nat) : Char :=
  if n < 10 then Char.ofNat (48 + n) else Char.ofNat (87 + (n % 16))

/-- Four-digit lowercase hex rendering used by JSON \u escapes. -/
def hex4 (n : Nat) : String :=
  String.mk [hexDigit ((n / 4096) % 16), hexDigit ((n / 256) % 16),
             hexDigit ((n / 16) % 16), hexDigit (n % 16)]

/-- JSON escaping of a single character, as JSON.stringify performs it. -/
def jsonEscapeChar (c : Char) : String :=
  if c = '"' then "\\\""
  else if c = '\\' then "\\\\"
  else if c = '\n' then "\\n"
  else if c = '\r' then "\\r"
  else if c = '\t' then "\\t"
  else if c = Char.ofNat 8 then "\\b"
  else if c = Char.ofNat 12 then "\\f"
  else if c.toNat < 32 then "\\u" ++ hex4 c.toNat
  else String.singleton c

/-- JSON quoting of a string (surrounding quotes plus escapes). -/
def jsonQuote (s : String) : String :=
  "\"" ++ String.join (s.toList.map jsonEscapeChar) ++ "\""

/-- Comma-join of already rendered items. -/
def commaJoin : List String → String
  | [] => ""
  | [x] => x
  | x :: xs => x ++ "," ++ commaJoin xs

mutual

/-- The model of `JSON.stringify` on a (defined) JSON value. -/
def jsonStringify : JsonValue → String
  | .jNull => "null"
  | .jBool true => "true"
  | .jBool false => "false"
  | .jNum n => toString n
  | .jStr s => jsonQuote s
  | .jArr xs => "[" ++ commaJoin (jsonStringifyList xs) ++ "]"
  | .jObj fs => "\x7b" ++ commaJoin (jsonStringifyFields fs) ++ "\x7d"

/-- Stringify every element of an array. -/
def jsonStringifyList : List JsonValue → List String
  | [] => []
  | x :: xs => jsonStringify x :: jsonStringifyList xs

/-- Stringify every key/value pair of an object. -/
def jsonStringifyFields : List (String × JsonValue) → List String
  | [] => []
  | (k, v) :: fs => (jsonQuote k ++ ":" ++ jsonStringify v) :: jsonStringifyFields fs

end

/-- The model of a thrown JavaScript `Error` as this client constructs them:
a `message` plus the own enumerable properties the code may assign
(`cause`, `url`, `hint`, `status`, `detail`, `code`).  A field that the code
never assigned is `none` (absent / `undefined`).  The `cause` of a network
error is kept opaque as a string description of the underlying exception. -/
structure ClientError where
  message : String
  cause : Option String := none
  url : Option String := none
  hint : Option String := none
  status : Option Nat := none
  detail : JSVal := none
  code : Option String := none

/-- Own enumerable properties of a `ClientError`, in the order the code
assigns them; `message` (and `stack`) are non-enumerable on `Error` and are
skipped by `JSON.stringify`, matching JavaScript. -/
def clientErrorOwnProps (e : ClientError) : JsonValue :=
  .jObj (List.filterMap id
    [ e.cause.map (fun c => ("cause", .jStr c)),
      e.url.map (fun u => ("url", .jStr u)),
      e.hint.map (fun h => ("hint", .jStr h)),
      e.status.map (fun n => ("status", .jNum n)),
      e.detail.map (fun d => ("detail", d)),
      e.code.map (fun c => ("code", .jStr c)) ])

/-- App.js readableError (App component, lines 58-67): given a thrown value
(`none` models a falsy throw), prefer a truthy `detail` (verbatim when it is
a string, otherwise JSON-stringified), else a truthy `message`, else
JSON.stringify of the error object itself. -/
def readableError (e : Option ClientError) : String :=
  match e with
  | none => "Unknown error"
  | some err =>
    if jsTruthy err.detail then
      match err.detail with
      | some (.jStr s) => s
      | d => jsonStringify (d.getD .jNull)
    else if err.message != "" then err.message
    else jsonStringify (clientErrorOwnProps err)

/-- Whitespace as JavaScript's trim treats it (the ASCII whitespace
characters together with NBSP; other Unicode space separators are not
used by this client). -/
def jsIsWhitespace (c : Char) : Bool :=
  c = ' ' || c = '\t' || c = '\n' || c = '\r' ||
  c = Char.ofNat 11 || c = Char.ofNat 12 || c = Char.ofNat 160

/-- The model of JavaScript `String.prototype.trim`. -/
def jsTrim (s : String) : String :=
  String.mk (((s.toList.dropWhile jsIsWhitespace).reverse.dropWhile
    jsIsWhitespace).reverse)

/-- Drop all trailing '/' characters: the effect of
`.replace(/\/*$/, '')` (and of `.replace(/\/+$/, '')`) on a string. -/
def stripTrailingSlashes (s : String) : String :=
  String.mk (s.toList.reverse.dropWhile (fun c => c = '/')).reverse

/-- The browser's `window.location` fields read by the client. -/
structure JsLocation where
  protocol : String
  hostname : String
  port : String
  origin : String
deriving Repr, DecidableEq

/-- The ambient JavaScript environment the api client reads: whether a
`window` global exists, its `location` when one is present and truthy, and
`process.env.REACT_APP_BACKEND_URL` when the whole `process.env` chain is
available (`none` models every way the chain can miss). -/
structure JsEnv where
  windowDefined : Bool
  location : Option JsLocation
  reactAppBackendUrl : Option String
deriving Repr, DecidableEq

/-- api.js getBackendBaseUrl, final revision (concatenated file lines
557-603): never throws; prefers a non-blank
`process.env.REACT_APP_BACKEND_URL` with trailing slashes dropped, else a
default derived from `window.location` (port 3000 maps to the same host at
port 3001, else the origin, else protocol//hostname:port), else
`http://localhost:3001`.  The try/catch bodies are total here, so the
catch arms that keep the default are unreachable in the model. -/
def getBackendBaseUrl (env : JsEnv) : String :=
  let envUrl := (env.reactAppBackendUrl.getD "")
  if (jsTrim envUrl).length > 0 then
    stripTrailingSlashes envUrl
  else
    match env.location with
    | some loc =>
      let r :=
        if loc.port = "3000" then loc.protocol ++ "//" ++ loc.hostname ++ ":3001"
        else if loc.origin != "" then loc.origin
        else loc.protocol ++ "//" ++ loc.hostname ++
          (if loc.port != "" then ":" ++ loc.port else "")
      stripTrailingSlashes r
    | none => "http://localhost:3001"

/-- A request descriptor as buildRequestInit produces it: method, the JSON
content-type header, and an optional JSON.stringify-ed body. -/
structure RequestInit where
  method : String
  contentType : String
  body : Option String
deriving Repr, DecidableEq

/-- api.js buildRequestInit: JSON headers, body present exactly when data
was passed (`data !== undefined`), in which case it is JSON.stringify(data). -/
def buildRequestInit (method : String) (data : Option JsonValue) : RequestInit :=
  { method := method,
    contentType := "application/json",
    body := data.map jsonStringify }

/-- The response object a fetch resolves with, as far as the client reads
it: `resp.headers.get('content-type')` (`none` when the header is absent),
and the outcomes of `resp.json()` / `resp.text()`, each either a value or
the message of the rejection it would throw. -/
structure BackendResponse where
  ok : Bool
  status : Nat
  statusText : String
  contentType : Option String
  jsonBody : Except String JsonValue
  textBody : Except String String

/-- What `fetch(url, init)` does: throw (with an opaque cause), or resolve
with a response. -/
inductive FetchOutcome where
  | netFail (cause : String)
  | resp (r : BackendResponse)

/-- A network oracle: the behaviour of `fetch` on each url/init pair. -/
abbrev FetchOracle := String → RequestInit → FetchOutcome

/-- Whether the first character list starts with the second. -/
def charsStartWith : List Char → List Char → Bool
  | _, [] => true
  | [], _ :: _ => false
  | c :: cs, p :: ps => c = p && charsStartWith cs ps

/-- The model of JavaScript `String.prototype.startsWith`. -/
def jsStartsWith (s pre : String) : Bool :=
  charsStartWith s.toList pre.toList

/-- The model of JavaScript `String.prototype.endsWith`. -/
def jsEndsWith (s suf : String) : Bool :=
  charsStartWith s.toList.reverse suf.toList.reverse

/-- Whether the second character list occurs inside the first. -/
def charsContain : List Char → List Char → Bool
  | [], pat => charsStartWith [] pat
  | c :: cs, pat => charsStartWith (c :: cs) pat || charsContain cs pat

/-- Substring test, the model of JavaScript `String.prototype.includes`. -/
def strIncludes (s pat : String) : Bool :=
  charsContain s.toList pat.toList

/-- What doFetch returns on success: the parsed JSON body, or the raw text
body when the content-type is not JSON. -/
inductive FetchSuccess where
  | json (v : JsonValue)
  | text (s : String)

/-- The url doFetch builds (final revision, lines 623-630): the resolved
base with trailing slashes dropped, then the path forced to have a leading
and a trailing slash. -/
def doFetchUrl (env : JsEnv) (path : String) : String :=
  let base := getBackendBaseUrl env
  let safeBase := stripTrailingSlashes base
  let normalizedPath :=
    (if jsStartsWith path "/" then "" else "/") ++ path ++
    (if jsEndsWith path "/" then "" else "/")
  safeBase ++ normalizedPath

/-- api.js doFetch, final revision (lines 623-701).  On a fetch throw,
raises an error with a fixed message, the original cause, the attempted
url, and a hint when running in a browser.  On a non-ok response, extracts
a best-effort detail (JSON body's `detail` or `message` field, else the
whole body; or the raw text body when not JSON; `undefined` when reading
the body itself fails) and raises an error carrying status, url and detail.
On an ok response, returns the parsed JSON body when the content-type
includes `application/json` (propagating a `resp.json()` rejection), else
the raw text body (propagating a `resp.text()` rejection). -/
def doFetch (env : JsEnv) (path : String) (init : RequestInit)
    (net : FetchOracle) : Except ClientError FetchSuccess :=
  let url := doFetchUrl env path
  match net url init with
  | .netFail cause =>
    .error { message := "Network error while contacting backend",
             cause := some cause,
             url := some url,
             hint := if env.windowDefined then
                       some "Check backend availability, CORS, and protocol/port."
                     else none }
  | .resp resp =>
    let contentType := resp.contentType.getD ""
    let isJson := strIncludes contentType "application/json"
    if !resp.ok then
      let detail : JSVal :=
        if isJson then
          match resp.jsonBody with
          | .ok body =>
            jsOr (jsOr (propAccess (some body) "detail")
                       (propAccess (some body) "message"))
                 (some body)
          | .error _ => none
        else
          match resp.textBody with
          | .ok t => some (.jStr t)
          | .error _ => none
      .error { message := "Backend error: " ++ toString resp.status ++ " " ++
                          resp.statusText,
               status := some resp.status,
               url := some url,
               detail := detail }
    else if isJson then
      match resp.jsonBody with
      | .ok body => .ok (.json body)
      | .error m => .error { message := m }
    else
      match resp.textBody with
      | .ok t => .ok (.text t)
      | .error m => .error { message := m }

/-- The validation error askQuestion throws before any network activity. -/
def validationError : ClientError :=
  { message := "Invalid input: question must be a non-empty string.",
    code := some "VALIDATION_ERROR" }

/-- api.js askQuestion, final revision (lines 704-726); the earlier
revision is identical except that its path has no trailing slash.  The
argument is an arbitrary JavaScript value; the guard rejects falsy values,
non-strings, and strings blank after trimming, throwing `validationError`,
in which case no fetch is issued.  Otherwise it POSTs the JSON payload
with the trimmed question and delegates to doFetch.  The second component
of the result is the list of url/init pairs handed to `fetch`. -/
def askQuestion (question : JSVal) (env : JsEnv) (net : FetchOracle) :
    Except ClientError FetchSuccess × List (String × RequestInit) :=
  if !(jsTruthy question) then (.error validationError, [])
  else if !(isStringVal question) then (.error validationError, [])
  else
    let q := match question with
             | some (.jStr s) => s
             | _ => ""
    if (jsTrim q).length = 0 then (.error validationError, [])
    else
      let payload : JsonValue := .jObj [("question", .jStr (jsTrim q))]
      let req := buildRequestInit "POST" (some payload)
      (doFetch env "/api/qa/ask/" req net, [(doFetchUrl env "/api/qa/ask/", req)])

/-- api.js getHistory, final revision (lines 729-744): a GET to the
history path through doFetch.  The second component again records the
url/init pairs handed to `fetch`. -/
def getHistory (env : JsEnv) (net : FetchOracle) :
    Except ClientError FetchSuccess × List (String × RequestInit) :=
  let req := buildRequestInit "GET" none
  (doFetch env "/api/qa/history/" req net, [(doFetchUrl env "/api/qa/history/", req)])

/-- A question/answer record as the spec's data model describes it and as
the App component consumes it: optional id and timestamp, question and
answer texts.  The timestamp is an abstract instant ordered by `≤`. -/
structure QARecord where
  id : Option String := none
  question : String
  answer : String
  created_at : Option Nat := none
deriving Repr, DecidableEq

/-- The App component's view state: the six useState hooks of App.js lines
15-20 (theme, question, history, loading, error, activeRecord). -/
structure AppState where
  theme : String
  question : String
  history : List QARecord
  loading : Bool
  error : Option String
  activeRecord : Option QARecord
deriving Repr, DecidableEq

/-- The initial view state set by the useState initialisers. -/
def initialAppState : AppState :=
  { theme := "light", question := "", history := [], loading := false,
    error := none, activeRecord := none }

/-- App.js handleSubmit (lines 69-88), given the outcome askQuestion would
produce for each question string.  Clears the error, trims the question,
returns early when it is blank; otherwise sets loading, invokes ask, on
success prepends the record to history, makes it active and clears the
input, on failure records the readable error; finally clears loading.  The
second component lists the arguments on which askQuestion was invoked. -/
def handleSubmit (s : AppState)
    (ask : String → Except ClientError QARecord) : AppState × List String :=
  let s1 := { s with error := none }
  let q := jsTrim s1.question
  if q = "" then (s1, [])
  else
    let s2 := { s1 with loading := true }
    match ask q with
    | .ok record =>
      ({ s2 with history := record :: s2.history,
                 activeRecord := some record,
                 question := "",
                 loading := false }, [q])
    | .error err =>
      ({ s2 with error := some (readableError (some err)),
                 loading := false }, [q])

/-- App.js toggleTheme (lines 51-54). -/
def toggleTheme (s : AppState) : AppState :=
  { s with theme := if s.theme = "light" then "dark" else "light" }

/-- The JavaScript value a resolved doFetch hands to its awaiter: the
parsed JSON value, or the raw text as a string. -/
def fetchSuccessVal : FetchSuccess → JsonValue
  | .json v => v
  | .text s => .jStr s

/-- JavaScript `v.length` on a JSON value (number for strings and arrays,
`undefined` otherwise). -/
def jsLength : JsonValue → JSVal
  | .jStr s => some (.jNum s.length)
  | .jArr xs => some (.jNum xs.length)
  | _ => none

/-- JavaScript `x > 0` where `x` is a length value (`undefined > 0` is
false). -/
def jsGtZero : JSVal → Bool
  | some (.jNum n) => 0 < n
  | _ => false

/-- JavaScript `v[0]` on a JSON value. -/
def jsIndexZero : JsonValue → JSVal
  | .jArr (x :: _) => some x
  | .jArr [] => none
  | .jStr s => match s.toList with
               | c :: _ => some (.jStr (String.singleton c))
               | [] => none
  | .jObj fs => lookupField fs "0"
  | _ => none

/-- Whether a JSON value has a `.map` method, i.e. whether the history
rendering expression `history.map(...)` (App.js lines 124-150) can run on
it at all rather than throw a TypeError. -/
def jsHasMapMethod : JsonValue → Bool
  | .jArr _ => true
  | _ => false

/-- The slice of view state the mount effect (App.js lines 28-48) touches,
with `history` kept as the raw JavaScript value `setHistory` receives so
that ill-typed fetch results are representable. -/
structure RawMountState where
  history : JsonValue
  error : Option String
  activeRecord : JSVal

/-- The raw mount state before the effect runs. -/
def initialRawMountState : RawMountState :=
  { history := .jArr [], error := none, activeRecord := none }

/-- The fulfilled branch of the mount effect (App.js lines 32-38) on a raw
result `h`: `setHistory(h || [])`, then `setActiveRecord(h[0])` when
`(h || []).length > 0`. -/
def applyHistorySuccess (s : RawMountState) (h : JsonValue) : RawMountState :=
  let hist := if jsTruthy (some h) then h else .jArr []
  let s1 := { s with history := hist }
  if jsGtZero (jsLength hist) then { s1 with activeRecord := jsIndexZero h }
  else s1

/-- The rejected branch of the mount effect (App.js lines 39-43):
`setError(readableError(e))`. -/
def applyHistoryFailure (s : RawMountState) (e : ClientError) : RawMountState :=
  { s with error := some (readableError (some e)) }

/-- The view state together with the mount effect's pending flag: `true`
until the initial getHistory call settles (the `mounted` guard is `true`
throughout since we model a component that stays mounted). -/
structure UiState where
  app : AppState
  fetchPending : Bool
deriving Repr, DecidableEq

/-- The state in which the component mounts. -/
def initialUiState : UiState :=
  { app := initialAppState, fetchPending := true }

/-- The events that drive the view state: the initial history fetch
settling (with a well-typed record list, or an error), the user editing
the question input, a form submission whose askQuestion outcome is given,
the user activating history entry `i` (click or keyboard, App.js lines
133-138), and the theme toggle. -/
inductive UiEvent where
  | fetchOk (h : List QARecord)
  | fetchFail (e : ClientError)
  | editQuestion (q : String)
  | submit (outcome : Except ClientError QARecord)
  | selectRecord (i : Nat)
  | themeToggle

/-- One step of the view-state machine, straight from the App.js handlers:
the fetch branches apply lines 32-42 once (arrays are truthy, so
`h || [] = h` and `setHistory` stores `h`; `h[0]` becomes the active
record when the list is non-empty), `submit` runs handleSubmit, and
`selectRecord` sets the clicked entry active without touching anything
else. -/
def uiStep (s : UiState) (ev : UiEvent) : UiState :=
  match ev with
  | .fetchOk h =>
    if s.fetchPending then
      { app := { s.app with
          history := h,
          activeRecord := if h.isEmpty then s.app.activeRecord else h.head? },
        fetchPending := false }
    else s
  | .fetchFail e =>
    if s.fetchPending then
      { app := { s.app with error := some (readableError (some e)) },
        fetchPending := false }
    else s
  | .editQuestion q => { s with app := { s.app with question := q } }
  | .submit outcome =>
    { s with app := (handleSubmit s.app (fun _ => outcome)).1 }
  | .selectRecord i =>
    match s.app.history[i]? with
    | some r => { s with app := { s.app with activeRecord := some r } }
    | none => s
  | .themeToggle => { s with app := toggleTheme s.app }

/-- Record `a` is at least as recent as record `b`, whenever both carry
timestamps (missing timestamps impose no constraint). -/
def laterEqB (a b : QARecord) : Bool :=
  match a.created_at, b.created_at with
  | some ta, some tb => tb ≤ ta
  | _, _ => true

/-- The list is ordered newest-first: every record is at least as recent
as all records after it. -/
def newestFirstB : List QARecord → Bool
  | [] => true
  | r :: rest => rest.all (fun x => laterEqB r x) && newestFirstB rest

/-- Environment assumptions under which an event can occur: the backend
serves history newest-first (per the API spec the code relies on at App.js
line 36), and a freshly created record is at least as recent as everything
already displayed. -/
def admissibleEventB (s : UiState) : UiEvent → Bool
  | .fetchOk h => newestFirstB h
  | .submit (.ok r) => s.app.history.all (fun x => laterEqB r x)
  | _ => true

/-- A whole trace is admissible from `s` when each event is admissible in
the state it fires in. -/
def admissibleTraceB : UiState → List UiEvent → Bool
  | _, [] => true
  | s, ev :: evs => admissibleEventB s ev && admissibleTraceB (uiStep s ev) evs

/-- Run a trace of events from a state. -/
def uiRun (s : UiState) (evs : List UiEvent) : UiState :=
  evs.foldl uiStep s

/-- The spec's view-state invariant: history is ordered newest-first and
the active record is null or an entry of history. -/
def uiInv (s : UiState) : Prop :=
  newestFirstB s.app.history = true ∧
  (s.app.activeRecord = none ∨
    ∃ r ∈ s.app.history, s.app.activeRecord = some r)

/-- Whether an event is the successful resolution of the history fetch. -/
def isFetchOkEvent : UiEvent → Bool
  | .fetchOk _ => true
  | _ => false

/-- The initial history fetch, if it succeeds at all, resolves before any
other event fires. -/
def fetchResolvesFirst (evs : List UiEvent) : Prop :=
  ∀ ev ∈ evs.drop 1, isFetchOkEvent ev = false

/-- Extract the error of a failed fetch result (dummy on success). -/
def errOf : Except ClientError FetchSuccess → ClientError
  | .error e => e
  | .ok _ => { message := "" }

/-- Whether a fetch result is an error. -/
def isErrorResult : Except ClientError FetchSuccess → Bool
  | .error _ => true
  | .ok _ => false

/-- A browserless environment with no configured backend URL. -/
def plainEnv : JsEnv :=
  { windowDefined := false, location := none, reactAppBackendUrl := none }

/-- An oracle for runs that must never reach the network. -/
def unreachedOracle : FetchOracle := fun _ _ => .netFail "unreached"

/-- An oracle answering 200 with a JSON record. -/
def okJsonOracle : FetchOracle := fun _ _ =>
  .resp { ok := true, status := 200, statusText := "OK",
          contentType := some "application/json",
          jsonBody := .ok (.jObj [("question", .jStr "hi"), ("answer", .jStr "yo")]),
          textBody := .ok "" }

/-- An oracle answering HTTP 500 with the JSON body with detail "boom". -/
def boomOracle : FetchOracle := fun _ _ =>
  .resp { ok := false, status := 500, statusText := "Internal Server Error",
          contentType := some "application/json",
          jsonBody := .ok (.jObj [("detail", .jStr "boom")]),
          textBody := .ok "" }

/-- An oracle answering HTTP 404 with a JSON body that has no detail
field but a message field. -/
def msgOracle : FetchOracle := fun _ _ =>
  .resp { ok := false, status := 404, statusText := "Not Found",
          contentType := some "application/json",
          jsonBody := .ok (.jObj [("message", .jStr "missing")]),
          textBody := .ok "" }

/-- An oracle answering HTTP 400 with a JSON body carrying neither a
detail nor a message field. -/
def wholeBodyOracle : FetchOracle := fun _ _ =>
  .resp { ok := false, status := 400, statusText := "Bad Request",
          contentType := some "application/json",
          jsonBody := .ok (.jObj [("weird", .jNum 3)]),
          textBody := .ok "" }

/-- An oracle answering HTTP 500 with an empty non-JSON body, so that the
raised error's detail is the empty string. -/
def emptyTextOracle : FetchOracle := fun _ _ =>
  .resp { ok := false, status := 500, statusText := "Internal Server Error",
          contentType := none,
          jsonBody := .error "not json",
          textBody := .ok "" }

/-- A view state with a whitespace-only question and a leftover error. -/
def c1State : AppState :=
  { theme := "light", question := "   ", history := [], loading := false,
    error := some "previous failure", activeRecord := none }

/-- A view state with a non-blank question ready to submit. -/
def submitState : AppState :=
  { theme := "light", question := "What is 2+2?", history := [], loading := false,
    error := none, activeRecord := none }

/-- The record the backend answers with in concrete runs. -/
def askedRecord : QARecord := { question := "What is 2+2?", answer := "4" }

/-- An askQuestion outcome that always fails. -/
def failingAsk : String → Except ClientError QARecord := fun _ =>
  .error { message := "backend down" }

/-- An askQuestion outcome that always succeeds with `askedRecord`. -/
def okAsk : String → Except ClientError QARecord := fun _ => .ok askedRecord

/-- An askQuestion outcome failing with exactly the error the final-revision
client raises on `boomOracle`. -/
def boomAsk : String → Except ClientError QARecord := fun q =>
  .error (errOf (askQuestion (some (.jStr q)) plainEnv boomOracle).1)

/-- An event trace in which a submission succeeds while the initial history
fetch is still pending, and the fetch then resolves with an empty list. -/
def raceTrace : List UiEvent :=
  [.editQuestion "What is 2+2?", .submit (.ok askedRecord), .fetchOk []]

/-- Two timestamped records, newest first. -/
def recA : QARecord :=
  { id := some "a", question := "a?", answer := "A", created_at := some 20 }

/-- The older of the two records. -/
def recB : QARecord :=
  { id := some "b", question := "b?", answer := "B", created_at := some 10 }

/-- A well-behaved trace: the history fetch resolves first, then the user
selects an entry, edits the question and submits successfully. -/
def calmTrace : List UiEvent :=
  [.fetchOk [recA, recB], .selectRecord 1, .editQuestion "c?",
   .submit (.ok { id := some "c", question := "c?", answer := "C",
                  created_at := some 30 })]

theorem string_length_eq_zero_iff (s : String) : s.length = 0 ↔ s = "" :=
  ⟨fun h => String.ext (by simpa using List.length_eq_zero.mp h), fun h => h ▸ rfl⟩

/-- C1.  Counterexample: a whitespace-only submission with a leftover error
message issues no network call, yet the state is not unchanged — the error
component is cleared by the unconditional `setError(null)` that runs before
the blank-input guard. -/
theorem c1_counterexample :
    (handleSubmit c1State failingAsk).2 = [] ∧
    (handleSubmit c1State failingAsk).1 ≠ c1State :=
  ⟨by decide, by decide⟩

/-- C1 (amended).  A submission whose question trims to the empty string
invokes askQuestion on nothing and leaves every state component unchanged
except the error message, which is reset to null. -/
theorem c1_theorem (s : AppState) (ask : String → Except ClientError QARecord)
    (h : jsTrim s.question = "") :
    handleSubmit s ask = ({ s with error := none }, []) := by
  simp [handleSubmit, h]

/-- C1 witness: the amended claim at the concrete counterexample state. -/
theorem c1_witness :
    jsTrim c1State.question = "" ∧
    handleSubmit c1State failingAsk = ({ c1State with error := none }, []) :=
  ⟨by decide, c1_theorem c1State failingAsk (by decide)⟩

/-- C4.  A submission of a non-blank question on which askQuestion resolves
with a record prepends that record to history (keeping all prior entries in
order), makes it the active record, and clears the question input. -/
theorem c4_theorem (s : AppState) (ask : String → Except ClientError QARecord)
    (r : QARecord) (hq : jsTrim s.question ≠ "")
    (hr : ask (jsTrim s.question) = .ok r) :
    (handleSubmit s ask).1.history = r :: s.history ∧
    (handleSubmit s ask).1.activeRecord = some r ∧
    (handleSubmit s ask).1.question = "" := by
  simp [handleSubmit, hq, hr]

/-- C4 witness: submitting "What is 2+2?" with a resolving backend. -/
theorem c4_witness :
    jsTrim submitState.question ≠ "" ∧
    (handleSubmit submitState okAsk).1.history = askedRecord :: submitState.history ∧
    (handleSubmit submitState okAsk).1.activeRecord = some askedRecord ∧
    (handleSubmit submitState okAsk).1.question = "" :=
  ⟨by decide, c4_theorem submitState okAsk askedRecord (by decide) rfl⟩

/-- C7.  Every submission that reaches askQuestion ends with loading
cleared, and when askQuestion rejects, the resulting state differs from
the prior one only in the displayed error (history, activeRecord, question
and theme are untouched). -/
theorem c7_theorem (s : AppState) (ask : String → Except ClientError QARecord)
    (hq : jsTrim s.question ≠ "") :
    (handleSubmit s ask).1.loading = false ∧
    ∀ e, ask (jsTrim s.question) = .error e →
      (handleSubmit s ask).1 =
        { s with error := some (readableError (some e)), loading := false } := by
  constructor
  · cases h : ask (jsTrim s.question) <;> simp [handleSubmit, hq, h]
  · intro e he
    simp [handleSubmit, hq, he]

/-- C7 witness: a failing submission of a concrete question. -/
theorem c7_witness :
    jsTrim submitState.question ≠ "" ∧
    (handleSubmit submitState failingAsk).1.loading = false ∧
    (handleSubmit submitState failingAsk).1 =
      { submitState with error := some (readableError (some { message := "backend down" })),
                         loading := false } :=
  ⟨by decide, (c7_theorem submitState failingAsk (by decide)).1,
    (c7_theorem submitState failingAsk (by decide)).2 { message := "backend down" } rfl⟩

/-- C2.  String inputs blank after trimming are rejected with the
VALIDATION_ERROR validation error and no fetch is issued; any other string
input issues exactly one POST whose body is the JSON document with the
trimmed question, and the parsed JSON record is returned on a successful
JSON response. -/
theorem c2_theorem (q : String) (env : JsEnv) (net : FetchOracle) :
    validationError.code = some "VALIDATION_ERROR" ∧
    (jsTrim q = "" →
      askQuestion (some (.jStr q)) env net = (.error validationError, [])) ∧
    (jsTrim q ≠ "" →
      (askQuestion (some (.jStr q)) env net).2 =
        [(doFetchUrl env "/api/qa/ask/",
          { method := "POST", contentType := "application/json",
            body := some (jsonStringify (.jObj [("question", .jStr (jsTrim q))])) })] ∧
      ∀ r body,
        net (doFetchUrl env "/api/qa/ask/")
            { method := "POST", contentType := "application/json",
              body := some (jsonStringify (.jObj [("question", .jStr (jsTrim q))])) } = .resp r →
        r.ok = true →
        strIncludes (r.contentType.getD "") "application/json" = true →
        r.jsonBody = .ok body →
        (askQuestion (some (.jStr q)) env net).1 = .ok (.json body)) := by
  refine ⟨rfl, ?_, ?_⟩
  · intro h
    by_cases hq : q = "" <;>
      simp [askQuestion, jsTruthy, isStringVal, hq, h]
  · intro h
    have hlen : ¬ ((jsTrim q).length = 0) := fun h0 =>
      h ((string_length_eq_zero_iff _).mp h0)
    have hq : q ≠ "" := by
      intro h0; exact h (by simp [h0]; rfl)
    constructor
    · simp [askQuestion, jsTruthy, isStringVal, hq, hlen, buildRequestInit]
    · intro r body hnet hok hct hjson
      simp [askQuestion, jsTruthy, isStringVal, hq, hlen, buildRequestInit,
            doFetch, hnet, hok, hct, hjson]

/-- C2 witness: the blank guard at a whitespace question, and the success
path at " hi " against a 200 JSON oracle. -/
theorem c2_witness :
    (jsTrim "   " = "" ∧
      askQuestion (some (.jStr "   ")) plainEnv unreachedOracle =
        (.error validationError, [])) ∧
    (jsTrim " hi " ≠ "" ∧
      (askQuestion (some (.jStr " hi ")) plainEnv okJsonOracle).1 =
        .ok (.json (.jObj [("question", .jStr "hi"), ("answer", .jStr "yo")]))) :=
  ⟨⟨by decide, (c2_theorem ("   ") plainEnv unreachedOracle).2.1 (by decide)⟩,
   ⟨by decide,
    ((c2_theorem (" hi ") plainEnv okJsonOracle).2.2 (by decide)).2 _ _ rfl rfl (by decide) rfl⟩⟩

/-- C10.  Every argument that is not of string type — undefined, null,
numbers, booleans, arrays, objects — is rejected exactly like the empty
string: the VALIDATION_ERROR validation error, and no network request. -/
theorem c10_theorem (v : JSVal) (env : JsEnv) (net : FetchOracle)
    (h : isStringVal v = false) :
    askQuestion v env net = (.error validationError, []) ∧
    askQuestion v env net = askQuestion (some (.jStr "")) env net ∧
    validationError.code = some "VALIDATION_ERROR" := by
  have h1 : askQuestion v env net = (.error validationError, []) := by
    by_cases ht : jsTruthy v <;> simp [askQuestion, ht, h]
  exact ⟨h1, by rw [h1]; rfl, rfl⟩

/-- C10 witness: undefined, null and a number are all rejected without a
network call, like the empty string. -/
theorem c10_witness :
    isStringVal none = false ∧
    askQuestion none plainEnv unreachedOracle = (.error validationError, []) ∧
    askQuestion (some .jNull) plainEnv unreachedOracle =
      askQuestion (some (.jStr "")) plainEnv unreachedOracle ∧
    askQuestion (some (.jNum 7)) plainEnv unreachedOracle = (.error validationError, []) :=
  ⟨rfl, (c10_theorem none plainEnv unreachedOracle rfl).1,
   (c10_theorem (some .jNull) plainEnv unreachedOracle rfl).2.1,
   (c10_theorem (some (.jNum 7)) plainEnv unreachedOracle rfl).1⟩

/-- C3.  doFetch raises a message/cause/url error on a fetch throw; on a
non-success status it raises an error carrying status, url, and a detail
extracted best-effort: a JSON body's truthy detail field, else its truthy
message field, else the whole JSON body, else the raw text body when the
content-type is not JSON; on success it returns the parsed JSON body when
the content-type indicates JSON and the raw text otherwise. -/
theorem c3_theorem (env : JsEnv) (path : String) (req : RequestInit)
    (net : FetchOracle) :
    (∀ c, net (doFetchUrl env path) req = .netFail c →
      doFetch env path req net = .error
        { message := "Network error while contacting backend",
          cause := some c, url := some (doFetchUrl env path),
          hint := if env.windowDefined then
                    some "Check backend availability, CORS, and protocol/port."
                  else none }) ∧
    (∀ r, net (doFetchUrl env path) req = .resp r → r.ok = false →
      isErrorResult (doFetch env path req net) = true ∧
      (errOf (doFetch env path req net)).message =
        "Backend error: " ++ toString r.status ++ " " ++ r.statusText ∧
      (errOf (doFetch env path req net)).status = some r.status ∧
      (errOf (doFetch env path req net)).url = some (doFetchUrl env path) ∧
      (∀ body, strIncludes (r.contentType.getD "") "application/json" = true →
        r.jsonBody = .ok body →
        jsTruthy (propAccess (some body) "detail") = true →
        (errOf (doFetch env path req net)).detail =
          propAccess (some body) "detail") ∧
      (∀ body, strIncludes (r.contentType.getD "") "application/json" = true →
        r.jsonBody = .ok body →
        jsTruthy (propAccess (some body) "detail") = false →
        jsTruthy (propAccess (some body) "message") = true →
        (errOf (doFetch env path req net)).detail =
          propAccess (some body) "message") ∧
      (∀ body, strIncludes (r.contentType.getD "") "application/json" = true →
        r.jsonBody = .ok body →
        jsTruthy (propAccess (some body) "detail") = false →
        jsTruthy (propAccess (some body) "message") = false →
        (errOf (doFetch env path req net)).detail = some body) ∧
      (∀ t, strIncludes (r.contentType.getD "") "application/json" = false →
        r.textBody = .ok t →
        (errOf (doFetch env path req net)).detail = some (.jStr t))) ∧
    (∀ r body, net (doFetchUrl env path) req = .resp r → r.ok = true →
      strIncludes (r.contentType.getD "") "application/json" = true →
      r.jsonBody = .ok body → doFetch env path req net = .ok (.json body)) ∧
    (∀ r t, net (doFetchUrl env path) req = .resp r → r.ok = true →
      strIncludes (r.contentType.getD "") "application/json" = false →
      r.textBody = .ok t → doFetch env path req net = .ok (.text t)) := by
  refine ⟨?_, ?_, ?_, ?_⟩
  · intro c hc
    simp [doFetch, hc]
  · intro r hr hok
    refine ⟨?_, ?_, ?_, ?_, ?_, ?_, ?_, ?_⟩
    · simp [doFetch, hr, hok, isErrorResult]
    · simp [doFetch, hr, hok, errOf]
    · simp [doFetch, hr, hok, errOf]
    · simp [doFetch, hr, hok, errOf]
    · intro body hct hjson hd
      simp [doFetch, hr, hok, hct, hjson, errOf, jsOr, hd]
    · intro body hct hjson hd hm
      simp [doFetch, hr, hok, hct, hjson, errOf, jsOr, hd, hm]
    · intro body hct hjson hd hm
      simp [doFetch, hr, hok, hct, hjson, errOf, jsOr, hd, hm]
    · intro t hct ht
      simp [doFetch, hr, hok, hct, ht, errOf]
  · intro r body hr hok hct hjson
    simp [doFetch, hr, hok, hct, hjson]
  · intro r t hr hok hct ht
    simp [doFetch, hr, hok, hct, ht]

/-- C3 witness: a throwing fetch; a 200 JSON response; and the three
detail extractions — a detail field, a message field without detail, and
a body with neither — at concrete inputs. -/
theorem c3_witness :
    doFetch plainEnv "/api/qa/history/" (buildRequestInit "GET" none)
        (fun _ _ => .netFail "ECONNREFUSED") = .error
      { message := "Network error while contacting backend",
        cause := some "ECONNREFUSED",
        url := some "http://localhost:3001/api/qa/history/",
        hint := none } ∧
    doFetch plainEnv "/api/qa/ask/" (buildRequestInit "POST" (some (.jObj [("question", .jStr "hi")])))
        okJsonOracle = .ok (.json (.jObj [("question", .jStr "hi"), ("answer", .jStr "yo")])) ∧
    (errOf (doFetch plainEnv "/api/qa/ask/" (buildRequestInit "POST" (some (.jObj [("question", .jStr "hi")])))
        boomOracle)).detail = some (.jStr "boom") ∧
    (errOf (doFetch plainEnv "/api/qa/history/" (buildRequestInit "GET" none)
        msgOracle)).detail = some (.jStr "missing") ∧
    (errOf (doFetch plainEnv "/api/qa/history/" (buildRequestInit "GET" none)
        wholeBodyOracle)).detail = some (.jObj [("weird", .jNum 3)]) :=
  ⟨(c3_theorem plainEnv "/api/qa/history/" (buildRequestInit "GET" none)
      (fun _ _ => .netFail "ECONNREFUSED")).1 "ECONNREFUSED" rfl,
   (c3_theorem plainEnv "/api/qa/ask/" (buildRequestInit "POST" (some (.jObj [("question", .jStr "hi")])))
      okJsonOracle).2.2.1 _ _ rfl rfl (by decide) rfl,
   ((c3_theorem plainEnv "/api/qa/ask/" (buildRequestInit "POST" (some (.jObj [("question", .jStr "hi")])))
      boomOracle).2.1 _ rfl rfl).2.2.2.2.1 _ (by decide) rfl (by decide),
   ((c3_theorem plainEnv "/api/qa/history/" (buildRequestInit "GET" none)
      msgOracle).2.1 _ rfl rfl).2.2.2.2.2.1 _ (by decide) rfl (by decide) (by decide),
   ((c3_theorem plainEnv "/api/qa/history/" (buildRequestInit "GET" none)
      wholeBodyOracle).2.1 _ rfl rfl).2.2.2.2.2.2.1 _ (by decide) rfl (by decide) (by decide)⟩

/-- C5.  Counterexample: an HTTP 500 with an empty non-JSON body yields an
error whose detail is the empty string — a string — yet the displayed text
is the error's message, not that detail, because the code tests the
detail's truthiness, not its type. -/
theorem c5_counterexample :
    (errOf (askQuestion (some (.jStr "hi")) plainEnv emptyTextOracle).1).detail =
      some (.jStr "") ∧
    isStringVal (errOf (askQuestion (some (.jStr "hi")) plainEnv emptyTextOracle).1).detail =
      true ∧
    readableError (some (errOf (askQuestion (some (.jStr "hi")) plainEnv emptyTextOracle).1)) =
      "Backend error: 500 Internal Server Error" ∧
    "Backend error: 500 Internal Server Error" ≠ "" :=
  ⟨rfl, rfl, by decide, by decide⟩

/-- C5 (amended).  The displayed error text is the error's detail when it
is a truthy value that is a string, else a JSON-stringification of a truthy
non-string detail, else the message when non-empty, else a stringified
fallback — always a string; and on HTTP 500 with body with detail "boom",
the submission handler displays exactly "boom". -/
theorem c5_theorem :
    (∀ (e : ClientError) (d : String), e.detail = some (.jStr d) → d ≠ "" →
      readableError (some e) = d) ∧
    (∀ e : ClientError, jsTruthy e.detail = true → isStringVal e.detail = false →
      readableError (some e) = jsonStringify (e.detail.getD .jNull)) ∧
    (∀ e : ClientError, jsTruthy e.detail = false → e.message ≠ "" →
      readableError (some e) = e.message) ∧
    (∀ e : ClientError, jsTruthy e.detail = false → e.message = "" →
      readableError (some e) = jsonStringify (clientErrorOwnProps e)) ∧
    readableError none = "Unknown error" ∧
    (handleSubmit submitState boomAsk).1.error = some "boom" := by
  refine ⟨?_, ?_, ?_, ?_, rfl, by decide⟩
  · intro e d hd hdne
    simp [readableError, hd, jsTruthy, hdne]
  · intro e htr hstr
    rcases hdet : e.detail with _ | v
    · rw [hdet] at htr; simp [jsTruthy] at htr
    · cases v <;> simp_all [readableError, isStringVal, jsTruthy]
  · intro e htr hm
    simp [readableError, htr, hm]
  · intro e htr hm
    simp [readableError, htr, hm]

/-- C5 witness: the amended priority chain at concrete errors. -/
theorem c5_witness :
    readableError (some { message := "m", detail := some (.jStr "boom") }) = "boom" ∧
    readableError (some { message := "m", detail := some (.jObj [("a", .jNum 1)]) }) =
      jsonStringify (.jObj [("a", .jNum 1)]) ∧
    readableError (some { message := "m", detail := some (.jStr "") }) = "m" :=
  ⟨(c5_theorem).1 _ "boom" rfl (by decide),
   (c5_theorem).2.1 { message := "m", detail := some (.jObj [("a", .jNum 1)]) } rfl rfl,
   (c5_theorem).2.2.1 { message := "m", detail := some (.jStr "") } rfl (by decide)⟩

/-- C6.  Counterexample: a configured URL padded with whitespace is
returned as-is (only trailing slashes are dropped, and only at the very
end): the result is not the whitespace-trimmed URL the claim promises. -/
theorem c6_counterexample :
    getBackendBaseUrl
        { windowDefined := false, location := none,
          reactAppBackendUrl := some " http://x.example " } =
      " http://x.example " ∧
    getBackendBaseUrl
        { windowDefined := false, location := none,
          reactAppBackendUrl := some " http://x.example " } ≠
      stripTrailingSlashes (jsTrim " http://x.example ") :=
  ⟨by decide, by decide⟩

/-- C6 (amended).  getBackendBaseUrl is total and returns, in order of
precedence: the configured environment URL with only its trailing slashes
removed (whitespace is used to test non-blankness but is not removed),
when that URL is a string that is non-blank after trimming; else a default
derived from window.location (same host at port 3001 when the page runs
on port 3000, else the origin, else protocol//hostname:port); else the
hardcoded http://localhost:3001. -/
theorem c6_theorem (env : JsEnv) :
    (∀ u, env.reactAppBackendUrl = some u → jsTrim u ≠ "" →
      getBackendBaseUrl env = stripTrailingSlashes u) ∧
    (jsTrim (env.reactAppBackendUrl.getD "") = "" →
      (env.location = none → getBackendBaseUrl env = "http://localhost:3001") ∧
      (∀ loc, env.location = some loc → loc.port = "3000" →
        getBackendBaseUrl env =
          stripTrailingSlashes (loc.protocol ++ "//" ++ loc.hostname ++ ":3001")) ∧
      (∀ loc, env.location = some loc → loc.port ≠ "3000" → loc.origin ≠ "" →
        getBackendBaseUrl env = stripTrailingSlashes loc.origin) ∧
      (∀ loc, env.location = some loc → loc.port ≠ "3000" → loc.origin = "" →
        getBackendBaseUrl env =
          stripTrailingSlashes (loc.protocol ++ "//" ++ loc.hostname ++
            (if loc.port ≠ "" then ":" ++ loc.port else "")))) := by
  constructor
  · intro u hu htrim
    have hlen : ¬ ((jsTrim u).length = 0) := fun h0 =>
      htrim ((string_length_eq_zero_iff _).mp h0)
    simp [getBackendBaseUrl, hu, hlen, Nat.pos_of_ne_zero hlen]
  · intro h
    have hlen : ((jsTrim (env.reactAppBackendUrl.getD "")).length = 0) :=
      (string_length_eq_zero_iff _).mpr h
    refine ⟨?_, ?_, ?_, ?_⟩
    · intro hloc; simp [getBackendBaseUrl, hloc, hlen]
    · intro loc hloc hport; simp [getBackendBaseUrl, hloc, hlen, hport]
    · intro loc hloc hport horig; simp [getBackendBaseUrl, hloc, hlen, hport, horig]
    · intro loc hloc hport horig; simp [getBackendBaseUrl, hloc, hlen, hport, horig]

/-- C6 witness: the configured-URL branch, and both fallbacks, at concrete
environments. -/
theorem c6_witness :
    getBackendBaseUrl
        { windowDefined := false, location := none,
          reactAppBackendUrl := some "http://backend:8080//" } = "http://backend:8080" ∧
    getBackendBaseUrl plainEnv = "http://localhost:3001" ∧
    getBackendBaseUrl
        { windowDefined := true,
          location := some { protocol := "https:", hostname := "app.example",
                             port := "3000", origin := "https://app.example:3000" },
          reactAppBackendUrl := none } = "https://app.example:3001" :=
  ⟨by
    have := (c6_theorem
      { windowDefined := false, location := none,
        reactAppBackendUrl := some "http://backend:8080//" }).1
      "http://backend:8080//" rfl (by decide)
    simpa using this,
   by
    have := ((c6_theorem plainEnv).2 (by decide)).1 rfl
    simpa using this,
   by
    have := ((c6_theorem
      { windowDefined := true,
        location := some { protocol := "https:", hostname := "app.example",
                           port := "3000", origin := "https://app.example:3000" },
        reactAppBackendUrl := none }).2 (by decide)).2.1 _ rfl rfl
    simpa using this⟩

/-- C8.  Counterexample: a history fetch resolving with a truthy non-array
value (here the string "oops") is stored in the history state unchanged —
history does not remain an empty sequence — and the stored value has no
.map method, so the sidebar rendering of it cannot run. -/
theorem c8_counterexample :
    (applyHistorySuccess initialRawMountState (.jStr "oops")).history = .jStr "oops" ∧
    (applyHistorySuccess initialRawMountState (.jStr "oops")).history ≠ .jArr [] ∧
    jsHasMapMethod (applyHistorySuccess initialRawMountState (.jStr "oops")).history = false :=
  ⟨rfl, fun h => JsonValue.noConfusion h, rfl⟩

/-- C8 (amended).  A history fetch that throws leaves history as the empty
sequence and records the fetch error in the common error banner (there is
no history-specific warning); a fetch resolving with a falsy value leaves
history empty; but a truthy value — array or not — is stored as-is. -/
theorem applyHistorySuccess_history (s : RawMountState) (h : JsonValue) :
    (applyHistorySuccess s h).history =
      if jsTruthy (some h) then h else .jArr [] := by
  simp only [applyHistorySuccess]
  split <;> first
  | rfl
  | (split <;> rfl)

theorem c8_theorem :
    (∀ e : ClientError,
      (applyHistoryFailure initialRawMountState e).history = .jArr [] ∧
      (applyHistoryFailure initialRawMountState e).error =
        some (readableError (some e))) ∧
    (∀ h : JsonValue, jsTruthy (some h) = false →
      (applyHistorySuccess initialRawMountState h).history = .jArr []) ∧
    (∀ h : JsonValue, jsTruthy (some h) = true →
      (applyHistorySuccess initialRawMountState h).history = h) := by
  refine ⟨fun e => ⟨rfl, rfl⟩, ?_, ?_⟩
  · intro h hf
    rw [applyHistorySuccess_history, hf]
    simp
  · intro h ht
    rw [applyHistorySuccess_history, ht]
    simp

/-- C8 witness: a throwing fetch and a null result both leave history
empty. -/
theorem c8_witness :
    (applyHistoryFailure initialRawMountState { message := "backend down" }).history =
      .jArr [] ∧
    jsTruthy (some .jNull) = false ∧
    (applyHistorySuccess initialRawMountState .jNull).history = .jArr [] :=
  ⟨(c8_theorem.1 { message := "backend down" }).1, rfl,
   c8_theorem.2.1 .jNull rfl⟩

theorem uiInv_initial : uiInv initialUiState :=
  ⟨rfl, Or.inl rfl⟩

theorem uiStep_preserves (s : UiState) (ev : UiEvent)
    (hInv : uiInv s) (hAdm : admissibleEventB s ev = true)
    (hNF : isFetchOkEvent ev = false) :
    uiInv (uiStep s ev) := by
  obtain ⟨hSorted, hActive⟩ := hInv
  cases ev with
  | fetchOk h => simp [isFetchOkEvent] at hNF
  | fetchFail e =>
    by_cases hp : s.fetchPending <;>
      simpa [uiStep, hp, uiInv] using ⟨hSorted, hActive⟩
  | editQuestion q =>
    simpa [uiStep, uiInv] using ⟨hSorted, hActive⟩
  | themeToggle =>
    simpa [uiStep, toggleTheme, uiInv] using ⟨hSorted, hActive⟩
  | selectRecord i =>
    cases hr : s.app.history[i]? with
    | none => simpa [uiStep, hr, uiInv] using ⟨hSorted, hActive⟩
    | some r =>
      refine ⟨by simpa [uiStep, hr] using hSorted, Or.inr ⟨r, ?_, ?_⟩⟩
      · simpa [uiStep, hr] using List.getElem?_mem hr
      · simp [uiStep, hr]
  | submit outcome =>
    by_cases hq : jsTrim s.app.question = ""
    · simpa [uiStep, handleSubmit, hq, uiInv] using ⟨hSorted, hActive⟩
    · cases outcome with
      | ok r =>
        simp only [admissibleEventB] at hAdm
        refine ⟨?_, Or.inr ⟨r, ?_, ?_⟩⟩
        · simp [uiStep, handleSubmit, hq, newestFirstB, hAdm, hSorted]
        · simp [uiStep, handleSubmit, hq]
        · simp [uiStep, handleSubmit, hq]
      | error e =>
        simpa [uiStep, handleSubmit, hq, uiInv] using ⟨hSorted, hActive⟩

theorem uiRun_preserves (evs : List UiEvent) : ∀ s : UiState,
    uiInv s → admissibleTraceB s evs = true →
    (∀ ev ∈ evs, isFetchOkEvent ev = false) →
    uiInv (uiRun s evs) := by
  induction evs with
  | nil => intro s h _ _; simpa [uiRun] using h
  | cons ev evs ih =>
    intro s hInv hAdm hNF
    rw [admissibleTraceB, Bool.and_eq_true] at hAdm
    have h1 := uiStep_preserves s ev hInv hAdm.1 (hNF ev (List.mem_cons_self ev evs))
    have h2 := ih (uiStep s ev) h1 hAdm.2
      (fun e he => hNF e (List.mem_cons_of_mem ev he))
    simpa [uiRun] using h2

theorem uiStep_fetchOk_initial (h : List QARecord)
    (hs : newestFirstB h = true) :
    uiInv (uiStep initialUiState (.fetchOk h)) := by
  cases h with
  | nil =>
    exact ⟨by simpa [uiStep, initialUiState, initialAppState] using hs,
           Or.inl (by simp [uiStep, initialUiState, initialAppState])⟩
  | cons r rest =>
    refine ⟨by simpa [uiStep, initialUiState, initialAppState] using hs,
            Or.inr ⟨r, ?_, ?_⟩⟩
    · simp [uiStep, initialUiState, initialAppState]
    · simp [uiStep, initialUiState, initialAppState]

/-- C9.  Counterexample: from the initial state, an admissible trace in
which a submission succeeds while the initial history fetch is still
pending and the fetch then resolves with an empty list reaches a view
state whose active record is non-null yet not a member of the (empty)
history — the history-fetch transition does not preserve the invariant. -/
theorem c9_counterexample :
    admissibleTraceB initialUiState raceTrace = true ∧
    (uiRun initialUiState raceTrace).app.activeRecord = some askedRecord ∧
    (uiRun initialUiState raceTrace).app.history = [] ∧
    ¬ uiInv (uiRun initialUiState raceTrace) := by
  have h1 : (uiRun initialUiState raceTrace).app.activeRecord = some askedRecord := by
    decide
  have h2 : (uiRun initialUiState raceTrace).app.history = [] := by decide
  refine ⟨by decide, h1, h2, fun hinv => ?_⟩
  rcases hinv.2 with h | ⟨r, hr, _⟩
  · rw [h1] at h; exact Option.noConfusion h
  · rw [h2] at hr; exact absurd hr (List.not_mem_nil r)

/-- C9 (amended).  Under the environment assumptions that fetched history
arrives newest-first and submitted records are at least as recent as all
displayed ones, every state reached by an admissible trace in which the
initial history fetch resolves (if ever) before every other event
satisfies the invariant: history is ordered newest-first and the active
record is null or a member of history.  (The successful-fetch transition
itself does not preserve the invariant from arbitrary states, as the
counterexample shows.) -/
theorem c9_theorem (evs : List UiEvent)
    (hAdm : admissibleTraceB initialUiState evs = true)
    (hFF : fetchResolvesFirst evs) :
    uiInv (uiRun initialUiState evs) := by
  cases evs with
  | nil => exact uiInv_initial
  | cons ev evs =>
    rw [admissibleTraceB, Bool.and_eq_true] at hAdm
    have hrest : ∀ e ∈ evs, isFetchOkEvent e = false := by
      intro e he
      exact hFF e (by simpa using he)
    cases hev : isFetchOkEvent ev with
    | true =>
      cases ev with
      | fetchOk h =>
        have h1 := uiStep_fetchOk_initial h
          (by simpa [admissibleEventB] using hAdm.1)
        simpa [uiRun] using uiRun_preserves evs _ h1 hAdm.2 hrest
      | fetchFail e => simp [isFetchOkEvent] at hev
      | editQuestion q => simp [isFetchOkEvent] at hev
      | submit outcome => simp [isFetchOkEvent] at hev
      | selectRecord i => simp [isFetchOkEvent] at hev
      | themeToggle => simp [isFetchOkEvent] at hev
    | false =>
      have h1 := uiStep_preserves initialUiState ev uiInv_initial hAdm.1 hev
      simpa [uiRun] using uiRun_preserves evs _ h1 hAdm.2 hrest

/-- C9 witness: a concrete admissible fetch-first trace — fetch two
timestamped records, select the older one, then submit a fresh question —
ends in a state satisfying the invariant. -/
theorem c9_witness :
    admissibleTraceB initialUiState calmTrace = true ∧
    fetchResolvesFirst calmTrace ∧
    uiInv (uiRun initialUiState calmTrace) := by
  have hFF : fetchResolvesFirst calmTrace := by
    intro ev he
    fin_cases he <;> rfl
  exact ⟨by decide, hFF, c9_theorem calmTrace (by decide) hFF⟩
